import Mathlib

/-!
Verification of the authentication middleware of `curate-preservation-api`
(Go package `server`, auth middleware for Pydio Cells OIDC).

The Go source is embedded shallowly: pure helpers become Lean functions,
the stateful cache becomes explicit state passing over an association
list, machine-level time (`time.Time` / `time.Duration`) becomes `Nat`
nanoseconds, and the two upstream HTTP calls become an explicit
environment value describing what each call would return.  Standard
library functions (`strings.Split`, `net.ParseIP`, `net.ParseCIDR`,
`net.SplitHostPort`, ...) are modelled from their documented behaviour,
restricted to the syntactic forms relevant here (ASCII strings, dotted
quad IPv4, grouped IPv6 with at most one `::` run and no embedded
dotted-quad tail or zone suffix).
-/

namespace PreservationAuth

/-! ## Time

Go durations are nanosecond counts; `time.Now()` becomes an explicit
`now : Nat` parameter.  `t.After(u)` is `u < t` (strict). -/

def nanosecond : Nat := 1

def second : Nat := 1000000000 * nanosecond

def minute : Nat := 60 * second

/-! ## Data model (auth middleware file of package `server`) -/

/-- `UserRole` : a user role in Pydio Cells (fields `Label`, `Uuid`). -/
structure UserRole where
  label : String
  uuid : String
deriving DecidableEq, Repr

/-- `UserInfo` : combined user information from OIDC and Pydio.  The
`Attributes map[string]any` field is omitted: it is an opaque
passthrough that none of the embedded operations reads or writes. -/
structure UserInfo where
  sub : String
  email : String
  name : String
  preferredName : String
  login : String
  uuid : String
  groupPath : String
  roles : List UserRole
deriving DecidableEq, Repr

/-- The Go zero value `UserInfo\x7b\x7d` returned by a cache lookup miss. -/
def UserInfo.zero : UserInfo := ⟨"", "", "", "", "", "", "", []⟩

/-- `PydioUserResponse` : response from the Pydio user info endpoint
(field `Users`). -/
structure PydioUserResponse where
  users : List UserInfo
deriving DecidableEq, Repr

/-- `CacheEntry` : a cached user info with absolute expiration time. -/
structure CacheEntry where
  userInfo : UserInfo
  expiresAt : Nat
deriving DecidableEq, Repr

/-- The `cache map[string]CacheEntry` of `UserInfoCache`, embedded as an
association list whose first binding for a key is its value. -/
abbrev Cache := List (String × CacheEntry)

/-- Lookup `c.cache[token]` of the underlying Go map. -/
def cacheFind (c : Cache) (token : String) : Option CacheEntry :=
  (c.find? (fun p => p.1 == token)).map (fun p => p.2)

/-- `UserInfoCache.Get` : retrieves user info from cache if valid.  The
entry is a miss if absent or if `time.Now().After(entry.ExpiresAt)`
(strictly past expiry).  The method takes only a read lock and performs
no mutation; the returned cache component makes that explicit. -/
def cacheGet (c : Cache) (token : String) (now : Nat) : (UserInfo × Bool) × Cache :=
  match cacheFind c token with
  | none => ((UserInfo.zero, false), c)
  | some entry =>
    if entry.expiresAt < now then ((UserInfo.zero, false), c)
    else ((entry.userInfo, true), c)

/-- `UserInfoCache.Set` : stores user info with
`ExpiresAt = time.Now().Add(c.ttl)`, overwriting any existing map entry
for the token. -/
def cacheSet (ttl : Nat) (c : Cache) (token : String) (userInfo : UserInfo)
    (now : Nat) : Cache :=
  (token, ⟨userInfo, now + ttl⟩) :: c.filter (fun p => !(p.1 == token))

/-- TTL of the global cache instance:
`var userInfoCache = NewUserInfoCache(5 * time.Minute)`. -/
def userInfoCacheTTL : Nat := 5 * minute

/-! ## Go string helpers

Models of the Go standard library string functions the middleware uses,
over `List Char`. -/

/-- Splitting a character list around every occurrence of `sep`;
auxiliary for the model of `strings.Split`. -/
def splitCharsAux (sep : Char) : List Char → List Char → List (List Char)
  | [], acc => [acc.reverse]
  | c :: rest, acc =>
    if c = sep then acc.reverse :: splitCharsAux sep rest []
    else splitCharsAux sep rest (c :: acc)

/-- Model of Go `strings.Split(s, sep)` for a one-character separator:
splits around every occurrence of `sep`; the result is never empty, and
`strings.Split("", sep)` is the one-element list containing `""`. -/
def goSplitChar (s : String) (sep : Char) : List String :=
  (splitCharsAux sep s.toList []).map (fun cs => String.mk cs)

/-- Model of Go `strings.ToLower` restricted to ASCII letters (the
middleware compares against the ASCII literal `"bearer"`; non-ASCII
case folding is out of scope). -/
def goToLower (s : String) : String :=
  String.mk (s.toList.map Char.toLower)

/-- The six ASCII white space characters trimmed by `strings.TrimSpace`
(Unicode white space beyond ASCII is out of scope). -/
def isGoSpace (c : Char) : Bool :=
  c = ' ' || c = '\t' || c = '\n' || c = '\x0b' || c = '\x0c' || c = '\r'

/-- Model of Go `strings.TrimSpace` restricted to ASCII white space. -/
def goTrimSpace (s : String) : String :=
  String.mk (((s.toList.dropWhile isGoSpace).reverse.dropWhile isGoSpace).reverse)

/-- Whether a string contains a given character
(`strings.Contains(s, c)` for a one-character needle). -/
def goContainsChar (s : String) (c : Char) : Bool :=
  s.toList.contains c

/-- Index of the last occurrence of `c`, if any. -/
def lastIdxOf (cs : List Char) (c : Char) : Option Nat :=
  (cs.reverse.findIdx? (· == c)).map (fun i => cs.length - 1 - i)

/-- Model of Go `net.SplitHostPort`: `none` on a missing port (no colon),
on an unbracketed host containing a colon (too many colons), or on a
malformed bracketed form; `some (host, port)` otherwise.  Bracketed
addresses are restricted to the shape `[host]:port`. -/
def splitHostPort (s : String) : Option (String × String) :=
  let cs := s.toList
  match lastIdxOf cs ':' with
  | none => none
  | some i =>
    if cs.head? = some '[' then
      match cs.findIdx? (· == ']') with
      | none => none
      | some j =>
        if j + 1 = i then
          some (String.mk ((cs.drop 1).take (j - 1)), String.mk (cs.drop (i + 1)))
        else none
    else
      let host := cs.take i
      let port := cs.drop (i + 1)
      if host.contains ':' then none
      else some (String.mk host, String.mk port)

/-! ## Request model and client IP resolution -/

/-- The slice of `*http.Request` the middleware reads.  `Header.Get`
returns `""` for an absent header, so each header is a plain `String`
with `""` meaning absent. -/
structure Request where
  xForwardedFor : String
  xRealIP : String
  authorization : String
  remoteAddr : String
deriving DecidableEq, Repr

/-- `getClientIP` : extracts the real client IP from the request.
`X-Forwarded-For` (first comma-separated entry, trimmed) takes priority,
then `X-Real-IP` (trimmed), then the host part of `RemoteAddr`
(`RemoteAddr` itself when `net.SplitHostPort` fails). -/
def getClientIP (r : Request) : String :=
  if r.xForwardedFor ≠ "" ∧ (goSplitChar r.xForwardedFor ',').length > 0 then
    goTrimSpace ((goSplitChar r.xForwardedFor ',').headD "")
  else if r.xRealIP ≠ "" then
    goTrimSpace r.xRealIP
  else
    match splitHostPort r.remoteAddr with
    | none => r.remoteAddr
    | some hp => hp.1

/-- `getConfig` : configuration URLs for the given site domain; an empty
domain falls back to `https://localhost:8080`. -/
def getConfig (siteDomain : String) : String × String × String :=
  let d := if siteDomain = "" then "https://localhost:8080" else siteDomain
  (d, d ++ "/oidc/userinfo", d ++ "/a/user")

/-! ## IP addresses, networks and the trusted network matcher

`net.IP` values are embedded as their big-endian numeric value together
with the address family; `net.IPNet` as a network value, a prefix
length, and the bit width of the stored form (32 or 128). -/

/-- A parsed IP address: the numeric value of its bytes, big endian
(`val < 2 ^ 32` for `v4`, `val < 2 ^ 128` for `v6`). -/
inductive IPAddr where
  | v4 (val : Nat)
  | v6 (val : Nat)
deriving DecidableEq, Repr

/-- Go `IP.To4` : a 4-byte address, or an IPv4-mapped 16-byte address
(high 96 bits equal to `::ffff:0:0`), yields its 32-bit value. -/
def IPAddr.to4 : IPAddr → Option Nat
  | .v4 v => some v
  | .v6 v => if v / 2 ^ 32 = 0xffff then some (v % 2 ^ 32) else none

/-- One decimal field of a dotted-quad IPv4 address: nonempty, digits
only, no leading zero, value at most 255 (Go `net.ParseIP` field
rules). -/
def parseV4Field (cs : List Char) : Option Nat :=
  if cs = [] then none
  else if 1 < cs.length ∧ cs.head? = some '0' then none
  else if cs.all (fun c => c.isDigit) then
    let n := cs.foldl (fun acc c => acc * 10 + (c.toNat - 48)) 0
    if n ≤ 255 then some n else none
  else none

/-- Model of Go `net.ParseIP` on dotted-quad IPv4 input: exactly four
dot-separated decimal fields. -/
def parseIPv4 (s : String) : Option Nat :=
  match splitCharsAux '.' s.toList [] with
  | [a, b, c, d] => do
    let a ← parseV4Field a
    let b ← parseV4Field b
    let c ← parseV4Field c
    let d ← parseV4Field d
    some (((a * 256 + b) * 256 + c) * 256 + d)
  | _ => none

/-- Hexadecimal digit test for IPv6 groups. -/
def isHexDigitChar (c : Char) : Bool :=
  c.isDigit || ('a' ≤ c && c ≤ 'f') || ('A' ≤ c && c ≤ 'F')

/-- Numeric value of a hexadecimal digit. -/
def hexDigitVal (c : Char) : Nat :=
  if c.isDigit then c.toNat - 48
  else if 'a' ≤ c && c ≤ 'f' then c.toNat - 87
  else c.toNat - 55

/-- One 16-bit group of an IPv6 address: one to four hex digits. -/
def parseV6Group (cs : List Char) : Option Nat :=
  if cs ≠ [] ∧ cs.length ≤ 4 ∧ cs.all isHexDigitChar then
    some (cs.foldl (fun acc c => acc * 16 + hexDigitVal c) 0)
  else none

/-- Breaks a character list at the first occurrence of a double colon
`::`, if any. -/
def breakDoubleColon : List Char → Option (List Char × List Char)
  | ':' :: ':' :: rest => some ([], rest)
  | c :: rest => (breakDoubleColon rest).map (fun p => (c :: p.1, p.2))
  | [] => none

/-- Combines a list of 16-bit groups into the numeric address value. -/
def combineGroups (gs : List Nat) : Nat :=
  gs.foldl (fun acc g => acc * 65536 + g) 0

/-- Parses a colon-separated run of IPv6 groups (an empty list for the
empty run). -/
def parseV6Groups (cs : List Char) : Option (List Nat) :=
  if cs = [] then some []
  else (splitCharsAux ':' cs []).mapM parseV6Group

/-- Model of Go `net.ParseIP` on grouped IPv6 input: eight
colon-separated 16-bit hex groups, or fewer groups with exactly one
`::` run standing for at least one zero group.  Embedded dotted-quad
tails and zone suffixes are out of scope. -/
def parseIPv6 (s : String) : Option Nat :=
  let cs := s.toList
  match breakDoubleColon cs with
  | none => do
    let parts := splitCharsAux ':' cs []
    if parts.length = 8 then
      let gs ← parts.mapM parseV6Group
      some (combineGroups gs)
    else none
  | some (l, r) =>
    if (breakDoubleColon r).isSome then none
    else do
      let lgs ← parseV6Groups l
      let rgs ← parseV6Groups r
      if lgs.length + rgs.length ≤ 7 then
        some (combineGroups (lgs ++ List.replicate (8 - lgs.length - rgs.length) 0 ++ rgs))
      else none

/-- Model of Go `net.ParseIP` : dispatches on the first `.` or `:`
encountered, like Go's character scan. -/
def parseIP (s : String) : Option IPAddr :=
  match s.toList.find? (fun c => c == '.' || c == ':') with
  | some '.' => (parseIPv4 s).map .v4
  | some ':' => (parseIPv6 s).map .v6
  | _ => none

/-- `net.IPNet` : `width` is the bit length of the stored form (32 or
128), `addr` the stored network address value, `maskLen` the contiguous
prefix length of the stored mask. -/
structure IPNet where
  width : Nat
  addr : Nat
  maskLen : Nat
deriving DecidableEq, Repr

/-- Go `networkNumberAndMask` : normalizes an IPv4-mapped 16-byte
network address to its 4-byte form, slicing the low 32 bits of the
128-bit mask (a /`n` mask slices to /`n - 96` when `96 ≤ n`, else to
/0). -/
def IPNet.normalized (n : IPNet) : Nat × Nat × Nat :=
  if n.width = 32 then (32, n.addr, n.maskLen)
  else
    match IPAddr.to4 (.v6 n.addr) with
    | some v4 => (32, v4, if 96 ≤ n.maskLen then n.maskLen - 96 else 0)
    | none => (128, n.addr, n.maskLen)

/-- Go `(*net.IPNet).Contains` : both the candidate address and the
network number are normalized to 4 bytes when IPv4(-mapped); addresses
of a different family than the network never match; otherwise the high
`maskLen` bits are compared. -/
def ipnetContains (n : IPNet) (ip : IPAddr) : Bool :=
  let m := n.normalized
  let wv : Nat × Nat :=
    match ip.to4 with
    | some v4 => (32, v4)
    | none =>
      match ip with
      | .v4 v => (32, v)
      | .v6 v => (128, v)
  wv.1 == m.1 && (m.2.1 / 2 ^ (m.1 - m.2.2) == wv.2 / 2 ^ (m.1 - m.2.2))

/-- Breaks a character list at the first occurrence of `c`, if any. -/
def breakOnChar (c : Char) : List Char → Option (List Char × List Char)
  | [] => none
  | x :: rest =>
    if x = c then some ([], rest)
    else (breakOnChar c rest).map (fun p => (x :: p.1, p.2))

/-- A decimal prefix length: nonempty, digits only, at most `width`. -/
def parsePrefixLen (cs : List Char) (width : Nat) : Option Nat :=
  if cs ≠ [] ∧ cs.all (fun c => c.isDigit) then
    let n := cs.foldl (fun acc c => acc * 10 + (c.toNat - 48)) 0
    if n ≤ width then some n else none
  else none

/-- Model of Go `net.ParseCIDR` : splits at the first `/`, parses the
address part as IPv4 then IPv6, and returns the *masked* network (the
address with its low `width - n` bits cleared) with prefix length
`n ≤ width`. -/
def parseCIDR (s : String) : Option IPNet :=
  match breakOnChar '/' s.toList with
  | none => none
  | some (addrPart, maskPart) =>
    match parseIPv4 (String.mk addrPart) with
    | some v =>
      (parsePrefixLen maskPart 32).map
        (fun n => ⟨32, v / 2 ^ (32 - n) * 2 ^ (32 - n), n⟩)
    | none =>
      match parseIPv6 (String.mk addrPart) with
      | some v =>
        (parsePrefixLen maskPart 128).map
          (fun n => ⟨128, v / 2 ^ (128 - n) * 2 ^ (128 - n), n⟩)
      | none => none

/-- `parseIPOrCIDR` : parses an IP address or CIDR range.  An entry
containing `/` goes through `net.ParseCIDR`; a bare IP becomes a
network with a full-length mask — `CIDRMask(32, 32)` when `To4` is
non-nil, `CIDRMask(128, 128)` otherwise. -/
def parseIPOrCIDR (ipStr : String) : Option IPNet :=
  if goContainsChar ipStr '/' then parseCIDR ipStr
  else
    match parseIP ipStr with
    | none => none
    | some ip =>
      match ip.to4 with
      | some v4 => some ⟨32, v4, 32⟩
      | none =>
        match ip with
        | .v4 v => some ⟨32, v, 32⟩
        | .v6 v => some ⟨128, v, 128⟩

/-- `isIPTrusted` : checks whether the client IP is inside any entry of
the trusted list; an unparsable client IP yields `false`, an unparsable
entry is skipped (`continue`). -/
def isIPTrusted (clientIP : String) (trustedIPs : List String) : Bool :=
  if trustedIPs.length = 0 then false
  else
    match parseIP clientIP with
    | none => false
    | some ip =>
      trustedIPs.any (fun t =>
        match parseIPOrCIDR t with
        | none => false
        | some n => ipnetContains n ip)

/-! ## Upstream environment

The two HTTP round trips of the validator become one explicit
environment value per request: what `client.Do` on the OIDC userinfo
request would produce, and what it would produce on the Pydio user-info
request.  JSON decoding failure of a 200 body is `body = none`. -/

/-- Outcome of one `client.Do` call: transport error, or a response with
a status code and a decodable (`some`) or undecodable (`none`) body. -/
inductive CallResult (α : Type) where
  | netErr
  | resp (status : Nat) (body : Option α)
deriving DecidableEq, Repr

/-- What the two upstream services would answer on this request. -/
structure UpstreamEnv where
  provider : CallResult UserInfo
  directory : CallResult PydioUserResponse
deriving DecidableEq, Repr

/-- The distinct `fmt.Errorf` failures of
`validateTokenAndGetUserInfo`, in source order. -/
inductive ValidateError where
  | userinfoRequestFailed
  | userinfoBadStatus (code : Nat)
  | userinfoDecodeFailed
  | emptySub
  | pydioRequestFailed
  | pydioBadStatus (code : Nat)
  | pydioDecodeFailed
  | userNotFound
deriving DecidableEq, Repr

/-- The `(*UserInfo, error)` return value of the validator. -/
inductive VResult where
  | ok (userInfo : UserInfo)
  | error (e : ValidateError)
deriving DecidableEq, Repr

/-- Result of one run of the validator: its return value, the global
cache afterwards, and how many calls went to each upstream service. -/
structure ValidateResult where
  res : VResult
  cache : Cache
  providerCalls : Nat
  directoryCalls : Nat
deriving DecidableEq, Repr

/-- `validateTokenAndGetUserInfo` : validates the token and retrieves
user information.  A cache hit returns immediately; otherwise the OIDC
userinfo endpoint is called, then — if it yielded a 200, a decodable
body and a non-empty `sub` — the Pydio user endpoint; on full success
the first returned Pydio user, overlaid with the OIDC `sub`, `email`,
`name` and `preferred_username`, is stored in the cache and returned. -/
def validateTokenAndGetUserInfo (token siteDomain : String)
    (allowInsecureTLS : Bool) (env : UpstreamEnv) (cache : Cache)
    (now : Nat) : ValidateResult :=
  let _ := allowInsecureTLS
  match (cacheGet cache token now).1 with
  | (userInfo, true) => ⟨.ok userInfo, cache, 0, 0⟩
  | (_, false) =>
    let cfg := getConfig siteDomain
    let _userinfoURL := cfg.2.1
    let _pydioUserInfoURL := cfg.2.2
    match env.provider with
    | .netErr => ⟨.error .userinfoRequestFailed, cache, 1, 0⟩
    | .resp status body =>
      if status ≠ 200 then ⟨.error (.userinfoBadStatus status), cache, 1, 0⟩
      else
        match body with
        | none => ⟨.error .userinfoDecodeFailed, cache, 1, 0⟩
        | some oidcUserInfo =>
          if oidcUserInfo.sub = "" then ⟨.error .emptySub, cache, 1, 0⟩
          else
            match env.directory with
            | .netErr => ⟨.error .pydioRequestFailed, cache, 1, 1⟩
            | .resp pstatus pbody =>
              if pstatus ≠ 200 then ⟨.error (.pydioBadStatus pstatus), cache, 1, 1⟩
              else
                match pbody with
                | none => ⟨.error .pydioDecodeFailed, cache, 1, 1⟩
                | some pydioUserInfo =>
                  match pydioUserInfo.users with
                  | [] => ⟨.error .userNotFound, cache, 1, 1⟩
                  | u :: _ =>
                    let merged :=
                      { u with
                        sub := oidcUserInfo.sub
                        email := oidcUserInfo.email
                        name := oidcUserInfo.name
                        preferredName := oidcUserInfo.preferredName }
                    ⟨.ok merged, cacheSet userInfoCacheTTL cache token merged now, 1, 1⟩

/-! ## The middleware -/

/-- What the middleware did with the request: wrote an error response
(`respondWithError`, downstream handler never invoked), or invoked the
downstream handler with the given identity bound into the request
context. -/
inductive MWResult where
  | respond (status : Nat) (message : String)
  | handled (userInfo : UserInfo)
deriving DecidableEq, Repr

/-- Result of one run of the middleware: what it did, the global cache
afterwards, and how many calls went to each upstream service. -/
structure AuthOutcome where
  result : MWResult
  cache : Cache
  providerCalls : Nat
  directoryCalls : Nat
deriving DecidableEq, Repr

/-- The minimal synthetic user info the middleware builds for a trusted
client IP. -/
def trustedUserInfo (clientIP : String) : UserInfo :=
  { sub := "trusted-ip:" ++ clientIP
    email := "trusted@internal"
    name := "Trusted Internal User"
    preferredName := "trusted"
    login := "trusted-ip"
    uuid := "trusted-ip:" ++ clientIP
    groupPath := "/trusted"
    roles := [⟨"trusted", "trusted-role"⟩] }

/-- `TokenRequired` : the authentication middleware.  A trusted client
IP bypasses authentication with a synthetic identity; otherwise the
`Authorization` header must be present and of the form
`<scheme> <token>` with case-insensitive scheme `bearer`, and the token
is validated; 401 is `http.StatusUnauthorized`. -/
def tokenRequired (siteDomain : String) (trustedIPs : List String)
    (allowInsecureTLS : Bool) (r : Request) (env : UpstreamEnv)
    (cache : Cache) (now : Nat) : AuthOutcome :=
  let clientIP := getClientIP r
  if isIPTrusted clientIP trustedIPs then
    ⟨.handled (trustedUserInfo clientIP), cache, 0, 0⟩
  else
    let authHeader := r.authorization
    if authHeader = "" then
      ⟨.respond 401 "Missing authorization header", cache, 0, 0⟩
    else
      let parts := goSplitChar authHeader ' '
      if parts.length ≠ 2 ∨ goToLower (parts.headD "") ≠ "bearer" then
        ⟨.respond 401 "Invalid Authorization header format", cache, 0, 0⟩
      else
        let token := parts.getD 1 ""
        let v := validateTokenAndGetUserInfo token siteDomain allowInsecureTLS env cache now
        match v.res with
        | .error _ =>
          ⟨.respond 401 "Invalid or expired token", v.cache, v.providerCalls, v.directoryCalls⟩
        | .ok userInfo =>
          ⟨.handled userInfo, v.cache, v.providerCalls, v.directoryCalls⟩

/-- Abbreviation used only in theorem statements: whether the provider
stage of a cache-miss validation succeeds (a 200 response whose body
decodes to a user info with a non-empty `sub`), which is exactly the
condition under which the validator goes on to the directory call. -/
def providerStageSucceeds (env : UpstreamEnv) : Bool :=
  match env.provider with
  | .netErr => false
  | .resp status body =>
    status == 200 &&
      (match body with
       | none => false
       | some o => o.sub != "")

/-! ## Sample data for concrete instances -/

/-- A sample provider (OIDC) identity. -/
def sampleProviderInfo : UserInfo :=
  ⟨"oidc-sub", "user@example.org", "User Name", "uname", "", "", "", []⟩

/-- A sample directory (Pydio) profile. -/
def sampleDirectoryUser : UserInfo :=
  ⟨"dir-sub", "dir@example.org", "Dir Name", "dname", "alice", "uuid-1",
    "/staff", [⟨"member", "role-1"⟩]⟩

/-- An upstream environment in which both calls fully succeed. -/
def sampleEnvOK : UpstreamEnv :=
  ⟨.resp 200 (some sampleProviderInfo), .resp 200 (some ⟨[sampleDirectoryUser]⟩)⟩

/-- An upstream environment in which both calls fail at transport
level. -/
def sampleEnvDown : UpstreamEnv := ⟨.netErr, .netErr⟩

/-! ## Helper lemmas -/

/-- `splitCharsAux` never produces an empty list, matching Go
`strings.Split` with a nonempty separator. -/
theorem splitCharsAux_ne_nil (sep : Char) (cs : List Char) :
    ∀ acc, splitCharsAux sep cs acc ≠ [] := by
  induction cs with
  | nil => intro acc; simp [splitCharsAux]
  | cons c rest ih =>
    intro acc
    unfold splitCharsAux
    split
    · simp
    · exact ih _

/-- `goSplitChar` always returns at least one piece. -/
theorem goSplitChar_length_pos (s : String) (sep : Char) :
    0 < (goSplitChar s sep).length := by
  unfold goSplitChar
  rw [List.length_map]
  exact List.length_pos.mpr (splitCharsAux_ne_nil sep s.toList [])

/-! ## Claims about the identity cache -/

/-- C3 counterexample: with an entry expiring at time 100, a read at
exactly time 100 still returns the identity with `found = true` — an
identity is served at its expiry instant, refuting "usable only while
now < expiry" / "never served at or past its expiry". -/
theorem cacheGet_serves_at_exact_expiry :
    (cacheGet [("tok", ⟨sampleDirectoryUser, 100⟩)] "tok" 100).1 =
      (sampleDirectoryUser, true) := rfl

/-- C3 (amended): `Get` returns `found = false` for an absent token and
for an entry whose expiry has strictly passed (`expiry < now`); a hit
requires only `now ≤ expiry` — the entry is still served at the exact
expiry instant — and returns the stored identity; and the read leaves
the cache unchanged (no deletion on read). -/
theorem cacheGet_found_conditions (c : Cache) (token : String) (now : Nat) :
    (cacheFind c token = none → (cacheGet c token now).1.2 = false) ∧
    (∀ e, cacheFind c token = some e → e.expiresAt < now →
      (cacheGet c token now).1.2 = false) ∧
    (∀ e, cacheFind c token = some e → now ≤ e.expiresAt →
      (cacheGet c token now).1 = (e.userInfo, true)) ∧
    (cacheGet c token now).2 = c := by
  refine ⟨?_, ?_, ?_, ?_⟩
  · intro h; unfold cacheGet; rw [h]
  · intro e h hlt; unfold cacheGet; rw [h]; simp [hlt]
  · intro e h hle; unfold cacheGet; rw [h]; simp [Nat.not_lt.mpr hle]
  · unfold cacheGet
    rcases h : cacheFind c token with _ | e
    · rfl
    · by_cases hlt : e.expiresAt < now <;> simp [hlt]

/-- C3 witness: the amended theorem applied to a one-entry cache read
before expiry. -/
theorem cacheGet_found_conditions_witness :
    (cacheGet [("tok", ⟨sampleDirectoryUser, 100⟩)] "tok" 50).1 =
      (sampleDirectoryUser, true) :=
  (cacheGet_found_conditions [("tok", ⟨sampleDirectoryUser, 100⟩)] "tok" 50).2.2.1
    ⟨sampleDirectoryUser, 100⟩ (by rfl) (by decide)

/-- C8: `Set` on the global five-minute-TTL cache unconditionally
overwrites any existing entry for the token, stamping expiry
`now + 5 minutes`, and an immediate `Get` of the same token returns the
stored identity with `found = true`. -/
theorem cacheSet_overwrites_and_get_hits (c : Cache) (token : String)
    (u : UserInfo) (now : Nat) :
    cacheFind (cacheSet userInfoCacheTTL c token u now) token =
      some ⟨u, now + 5 * minute⟩ ∧
    (cacheGet (cacheSet userInfoCacheTTL c token u now) token now).1 =
      (u, true) := by
  have hfind : cacheFind (cacheSet userInfoCacheTTL c token u now) token =
      some ⟨u, now + 5 * minute⟩ := by
    unfold cacheSet cacheFind userInfoCacheTTL
    simp [List.find?]
  refine ⟨hfind, ?_⟩
  unfold cacheGet
  rw [hfind]
  have : ¬ (now + 5 * minute < now) := by omega
  simp [this]

/-! ## Claims about client IP resolution and configuration URLs -/

/-- C9: the resolved client address is the trimmed first comma-separated
entry of a non-empty `X-Forwarded-For`; otherwise the trimmed non-empty
`X-Real-IP`; otherwise the host portion of the transport `RemoteAddr`
(the whole address when it has no host:port split). -/
theorem getClientIP_precedence (r : Request) :
    (r.xForwardedFor ≠ "" →
      getClientIP r = goTrimSpace ((goSplitChar r.xForwardedFor ',').headD "")) ∧
    (r.xForwardedFor = "" → r.xRealIP ≠ "" →
      getClientIP r = goTrimSpace r.xRealIP) ∧
    (r.xForwardedFor = "" → r.xRealIP = "" →
      (∀ h p, splitHostPort r.remoteAddr = some (h, p) → getClientIP r = h) ∧
      (splitHostPort r.remoteAddr = none → getClientIP r = r.remoteAddr)) := by
  refine ⟨?_, ?_, ?_⟩
  · intro hxff
    unfold getClientIP
    rw [if_pos ⟨hxff, goSplitChar_length_pos _ _⟩]
  · intro hxff hxri
    unfold getClientIP
    rw [if_neg (by simp [hxff]), if_pos hxri]
  · intro hxff hxri
    constructor
    · intro h p hsome
      unfold getClientIP
      rw [if_neg (by simp [hxff]), if_neg (by simp [hxri]), hsome]
    · intro hnone
      unfold getClientIP
      rw [if_neg (by simp [hxff]), if_neg (by simp [hxri]), hnone]

/-- C9 witness: a request carrying all three sources resolves to the
trimmed first `X-Forwarded-For` hop. -/
theorem getClientIP_precedence_witness :
    getClientIP ⟨" 1.2.3.4 , 5.6.7.8", "9.9.9.9", "", "10.0.0.1:443"⟩ =
      "1.2.3.4" :=
  ((getClientIP_precedence
      ⟨" 1.2.3.4 , 5.6.7.8", "9.9.9.9", "", "10.0.0.1:443"⟩).1
    (by decide)).trans (by rfl)

/-- C10: `getConfig` never fails: the empty site domain silently becomes
the fixed base `https://localhost:8080`, and the provider and directory
URLs are the (substituted) domain with `/oidc/userinfo` and `/a/user`
appended. -/
theorem getConfig_urls (siteDomain : String) :
    getConfig siteDomain =
      if siteDomain = "" then
        ("https://localhost:8080", "https://localhost:8080/oidc/userinfo",
          "https://localhost:8080/a/user")
      else
        (siteDomain, siteDomain ++ "/oidc/userinfo", siteDomain ++ "/a/user") := by
  unfold getConfig
  split <;> rfl

/-! ## Claims about the trusted network matcher -/

/-- Characterization of `isIPTrusted` : it holds exactly when the client
address parses and some configured entry parses to a network containing
it. -/
theorem isIPTrusted_iff (clientIP : String) (trustedIPs : List String) :
    isIPTrusted clientIP trustedIPs = true ↔
      ∃ ip, parseIP clientIP = some ip ∧
        ∃ t ∈ trustedIPs, ∃ n, parseIPOrCIDR t = some n ∧
          ipnetContains n ip = true := by
  unfold isIPTrusted
  split
  · rename_i hlen
    have : trustedIPs = [] := List.length_eq_zero.mp hlen
    subst this
    simp
  · rcases hp : parseIP clientIP with _ | ip
    · simp
    · rw [List.any_eq_true]
      constructor
      · rintro ⟨t, ht, hf⟩
        refine ⟨ip, rfl, t, ht, ?_⟩
        rcases hn : parseIPOrCIDR t with _ | n
        · rw [hn] at hf; exact absurd hf (by simp)
        · rw [hn] at hf; exact ⟨n, rfl, hf⟩
      · rintro ⟨ip2, hip2, t, ht, n, hn, hc⟩
        injection hip2 with hip2
        subst hip2
        exact ⟨t, ht, by rw [hn]; exact hc⟩

/-- C5: trust is failure-closed — an unparsable client address, and a
client matching no entry, yield `false`; the match holds exactly when
some configured entry parses and contains the parsed client address (so
an unparsable entry is skipped and matching continues, stated below as
list-head invariance); a bare configured IP becomes a full-length
prefix, /32 for (possibly v4-mapped) IPv4 and /128 for other IPv6; and
an entry containing `/` is handed to the CIDR parser as-is. -/
theorem isIPTrusted_closed_and_entry_parsing (clientIP : String)
    (trustedIPs : List String) :
    (parseIP clientIP = none → isIPTrusted clientIP trustedIPs = false) ∧
    (isIPTrusted clientIP trustedIPs = true ↔
      ∃ ip, parseIP clientIP = some ip ∧
        ∃ t ∈ trustedIPs, ∃ n, parseIPOrCIDR t = some n ∧
          ipnetContains n ip = true) ∧
    (∀ bad, parseIPOrCIDR bad = none →
      isIPTrusted clientIP (bad :: trustedIPs) =
        isIPTrusted clientIP trustedIPs) ∧
    (∀ s ip, goContainsChar s '/' = false → parseIP s = some ip →
      ∃ n, parseIPOrCIDR s = some n ∧ n.maskLen = n.width ∧
        ((ip.to4.isSome = true ∧ n.width = 32) ∨
          (ip.to4 = none ∧ n.width = 128))) ∧
    (∀ s, goContainsChar s '/' = true → parseIPOrCIDR s = parseCIDR s) := by
  refine ⟨?_, isIPTrusted_iff clientIP trustedIPs, ?_, ?_, ?_⟩
  · intro h
    unfold isIPTrusted
    split
    · rfl
    · rw [h]
  · intro bad hbad
    rw [Bool.eq_iff_iff, isIPTrusted_iff, isIPTrusted_iff]
    constructor
    · rintro ⟨ip, hip, t, ht, n, hn, hc⟩
      rcases List.mem_cons.mp ht with rfl | ht2
      · rw [hbad] at hn; exact absurd hn (by simp)
      · exact ⟨ip, hip, t, ht2, n, hn, hc⟩
    · rintro ⟨ip, hip, t, ht, n, hn, hc⟩
      exact ⟨ip, hip, t, List.mem_cons_of_mem _ ht, n, hn, hc⟩
  · intro s ip hslash hparse
    rcases ip with v | v
    · refine ⟨⟨32, v, 32⟩, ?_, rfl, Or.inl ⟨rfl, rfl⟩⟩
      unfold parseIPOrCIDR
      rw [if_neg (by simp [hslash])]
      simp only [hparse, IPAddr.to4]
    · rcases h4 : (IPAddr.v6 v).to4 with _ | v4
      · refine ⟨⟨128, v, 128⟩, ?_, rfl, Or.inr ⟨rfl, rfl⟩⟩
        unfold parseIPOrCIDR
        rw [if_neg (by simp [hslash])]
        simp only [hparse, h4]
      · refine ⟨⟨32, v4, 32⟩, ?_, rfl, Or.inl ⟨rfl, rfl⟩⟩
        unfold parseIPOrCIDR
        rw [if_neg (by simp [hslash])]
        simp only [hparse, h4]
  · intro s h
    unfold parseIPOrCIDR
    rw [h, if_pos rfl]

/-- C5 witness: an unparsable first entry is skipped and the client
still matches the second entry. -/
theorem isIPTrusted_closed_witness :
    isIPTrusted "10.1.2.3" ["bogus-entry", "10.0.0.0/8"] = true :=
  (((isIPTrusted_closed_and_entry_parsing "10.1.2.3" ["10.0.0.0/8"]).2.2.1
      "bogus-entry" (by rfl))).trans (by rfl)

/-! ## Claims about the validator -/

/-- C1 counterexample: the token is absent from the (empty) cache, yet
with the provider unreachable the validation performs exactly ONE
upstream call before returning, not two. -/
theorem cache_miss_not_always_two_calls :
    (cacheGet [] "tok" 0).1.2 = false ∧
    (validateTokenAndGetUserInfo "tok" "https://cells.example" false
        sampleEnvDown [] 0).providerCalls +
      (validateTokenAndGetUserInfo "tok" "https://cells.example" false
        sampleEnvDown [] 0).directoryCalls = 1 :=
  ⟨rfl, rfl⟩

/-- C1 (amended): a cache hit returns the cached identity with zero
upstream calls and an untouched cache; a cache miss always performs the
provider call (exactly one), and performs the directory call — for a
total of exactly two upstream calls — precisely when the provider stage
succeeds (200 status, decodable body, non-empty subject); when the
provider stage fails the validator returns after the single provider
call. -/
theorem validate_upstream_call_counts (token siteDomain : String)
    (tls : Bool) (env : UpstreamEnv) (cache : Cache) (now : Nat) :
    ((cacheGet cache token now).1.2 = true →
      validateTokenAndGetUserInfo token siteDomain tls env cache now =
        ⟨.ok (cacheGet cache token now).1.1, cache, 0, 0⟩) ∧
    ((cacheGet cache token now).1.2 = false →
      (validateTokenAndGetUserInfo token siteDomain tls env cache now).providerCalls = 1 ∧
      (validateTokenAndGetUserInfo token siteDomain tls env cache now).directoryCalls =
        (if providerStageSucceeds env = true then 1 else 0)) := by
  constructor
  · intro hhit
    unfold validateTokenAndGetUserInfo
    rcases hc : (cacheGet cache token now).1 with ⟨u, found⟩
    rw [hc] at hhit
    simp only at hhit
    subst hhit
    rfl
  · intro hmiss
    unfold validateTokenAndGetUserInfo
    rcases hc : (cacheGet cache token now).1 with ⟨u, found⟩
    rw [hc] at hmiss
    simp only at hmiss
    subst hmiss
    obtain ⟨p, d⟩ := env
    cases p with
    | netErr => simp [providerStageSucceeds]
    | resp status body =>
      by_cases hs : status = 200
      · subst hs
        cases body with
        | none => simp [providerStageSucceeds]
        | some o =>
          by_cases ho : o.sub = ""
          · simp [providerStageSucceeds, ho]
          · cases d with
            | netErr => simp [providerStageSucceeds, ho]
            | resp pstatus pbody =>
              by_cases hps : pstatus = 200
              · subst hps
                cases pbody with
                | none => simp [providerStageSucceeds, ho]
                | some pu =>
                  obtain ⟨us⟩ := pu
                  cases us with
                  | nil => simp [providerStageSucceeds, ho]
                  | cons u rest => simp [providerStageSucceeds, ho]
              · simp [providerStageSucceeds, ho, hps]
      · simp [providerStageSucceeds, hs]

/-- C1 witness: a hit on a one-entry cache is answered from the cache
with zero upstream calls. -/
theorem validate_upstream_call_counts_witness :
    validateTokenAndGetUserInfo "tok" "" false sampleEnvOK
        [("tok", ⟨sampleDirectoryUser, 100⟩)] 0 =
      ⟨.ok sampleDirectoryUser, [("tok", ⟨sampleDirectoryUser, 100⟩)], 0, 0⟩ :=
  (validate_upstream_call_counts "tok" "" false sampleEnvOK
    [("tok", ⟨sampleDirectoryUser, 100⟩)] 0).1 (by rfl)

/-- C4: a successful validation on a cache miss forces both upstream
calls to have succeeded, and the returned identity is exactly the first
user of the directory response with its subject id, email, name and
preferred username replaced by the provider values; in particular the
subject id comes from the provider response, never from the directory
profile. -/
theorem validate_merges_first_directory_user (token siteDomain : String)
    (tls : Bool) (env : UpstreamEnv) (cache : Cache) (now : Nat) (v : UserInfo)
    (hmiss : (cacheGet cache token now).1.2 = false)
    (hok : (validateTokenAndGetUserInfo token siteDomain tls env cache now).res =
      .ok v) :
    ∃ oidc u rest,
      env.provider = .resp 200 (some oidc) ∧
      env.directory = .resp 200 (some ⟨u :: rest⟩) ∧
      v = { u with
            sub := oidc.sub
            email := oidc.email
            name := oidc.name
            preferredName := oidc.preferredName } ∧
      v.sub = oidc.sub := by
  unfold validateTokenAndGetUserInfo at hok
  rcases hc : (cacheGet cache token now).1 with ⟨cu, found⟩
  rw [hc] at hmiss hok
  simp only at hmiss
  subst hmiss
  obtain ⟨p, d⟩ := env
  cases p with
  | netErr => simp at hok
  | resp status body =>
    by_cases hs : status = 200
    · subst hs
      cases body with
      | none => simp at hok
      | some o =>
        by_cases ho : o.sub = ""
        · simp [ho] at hok
        · cases d with
          | netErr => simp [ho] at hok
          | resp pstatus pbody =>
            by_cases hps : pstatus = 200
            · subst hps
              cases pbody with
              | none => simp [ho] at hok
              | some pu =>
                obtain ⟨us⟩ := pu
                cases us with
                | nil => simp [ho] at hok
                | cons u rest =>
                  simp [ho] at hok
                  subst hok
                  exact ⟨o, u, rest, rfl, rfl, rfl, rfl⟩
            · simp [ho, hps] at hok
    · simp [hs] at hok

/-- C4 witness: the theorem applied to a concrete fully-successful
environment on an empty cache. -/
theorem validate_merges_first_directory_user_witness :
    ∃ oidc u rest,
      sampleEnvOK.provider = .resp 200 (some oidc) ∧
      sampleEnvOK.directory = .resp 200 (some ⟨u :: rest⟩) ∧
      ({ sampleDirectoryUser with
          sub := "oidc-sub"
          email := "user@example.org"
          name := "User Name"
          preferredName := "uname" } : UserInfo) =
        { u with
          sub := oidc.sub
          email := oidc.email
          name := oidc.name
          preferredName := oidc.preferredName } ∧
      ({ sampleDirectoryUser with
          sub := "oidc-sub"
          email := "user@example.org"
          name := "User Name"
          preferredName := "uname" } : UserInfo).sub = oidc.sub :=
  validate_merges_first_directory_user "tok" "" false sampleEnvOK [] 0
    _ (by rfl) (by rfl)

/-! ## Claims about the middleware -/

/-- C2 counterexample: the header value consisting of the scheme
`Bearer` followed by a space and an empty token is NOT rejected as
invalid format: the format check passes and token validation
(downstream of extraction) runs, performing an upstream call. -/
theorem empty_token_passes_format_check :
    tokenRequired "" [] false ⟨"", "", "Bearer ", "8.8.8.8:80"⟩
        sampleEnvDown [] 0 =
      ⟨.respond 401 "Invalid or expired token", [], 1, 0⟩ := rfl

/-- C2 (amended): off the bypass path, an absent (empty-valued)
`Authorization` header yields the 401 missing-header response, and a
header whose space-split is not exactly two parts or whose first part
is not case-insensitively `bearer` yields the 401 invalid-format
response; in both cases no upstream call is made, the cache is
untouched and the downstream handler is not invoked.  (An empty token
after a valid scheme, as in `Bearer␣`, is two split parts and therefore
NOT rejected by the format check: it proceeds to token validation.) -/
theorem tokenRequired_header_failures (siteDomain : String)
    (trustedIPs : List String) (tls : Bool) (r : Request)
    (env : UpstreamEnv) (cache : Cache) (now : Nat)
    (hnt : isIPTrusted (getClientIP r) trustedIPs = false) :
    (r.authorization = "" →
      tokenRequired siteDomain trustedIPs tls r env cache now =
        ⟨.respond 401 "Missing authorization header", cache, 0, 0⟩) ∧
    (r.authorization ≠ "" →
      ((goSplitChar r.authorization ' ').length ≠ 2 ∨
        goToLower ((goSplitChar r.authorization ' ').headD "") ≠ "bearer") →
      tokenRequired siteDomain trustedIPs tls r env cache now =
        ⟨.respond 401 "Invalid Authorization header format", cache, 0, 0⟩) := by
  constructor
  · intro h
    unfold tokenRequired
    rw [if_neg (by simp [hnt]), if_pos h]
  · intro h hfmt
    unfold tokenRequired
    rw [if_neg (by simp [hnt]), if_neg h, if_pos hfmt]

/-- C2 witness: a request with no `Authorization` header from an
untrusted address gets the 401 missing-header response with zero
upstream calls. -/
theorem tokenRequired_header_failures_witness :
    tokenRequired "" [] false ⟨"", "", "", "8.8.8.8:80"⟩ sampleEnvOK [] 0 =
      ⟨.respond 401 "Missing authorization header", [], 0, 0⟩ :=
  (tokenRequired_header_failures "" [] false ⟨"", "", "", "8.8.8.8:80"⟩
    sampleEnvOK [] 0 (by rfl)).1 (by rfl)

/-- C6: a request from a trusted client address is passed to the
downstream handler with the synthetic identity — subject
`trusted-ip:<address>` and the single fixed role — with zero upstream
calls and the cache left exactly as it was (the synthetic identity
never enters the cache); and the outcome is independent of the
`Authorization` header, which is never read on this path. -/
theorem trusted_bypass_synthetic_identity (siteDomain : String)
    (trustedIPs : List String) (tls : Bool) (r : Request)
    (env : UpstreamEnv) (cache : Cache) (now : Nat)
    (ht : isIPTrusted (getClientIP r) trustedIPs = true) :
    tokenRequired siteDomain trustedIPs tls r env cache now =
      ⟨.handled (trustedUserInfo (getClientIP r)), cache, 0, 0⟩ ∧
    (trustedUserInfo (getClientIP r)).sub = "trusted-ip:" ++ getClientIP r ∧
    (trustedUserInfo (getClientIP r)).roles = [⟨"trusted", "trusted-role"⟩] ∧
    (∀ a, tokenRequired siteDomain trustedIPs tls
        { r with authorization := a } env cache now =
      tokenRequired siteDomain trustedIPs tls r env cache now) := by
  have hip : ∀ a, getClientIP { r with authorization := a } = getClientIP r :=
    fun a => rfl
  have hmain : tokenRequired siteDomain trustedIPs tls r env cache now =
      ⟨.handled (trustedUserInfo (getClientIP r)), cache, 0, 0⟩ := by
    unfold tokenRequired
    rw [if_pos ht]
  refine ⟨hmain, rfl, rfl, ?_⟩
  intro a
  have h1 : tokenRequired siteDomain trustedIPs tls
      { r with authorization := a } env cache now =
      ⟨.handled (trustedUserInfo (getClientIP { r with authorization := a })),
        cache, 0, 0⟩ := by
    unfold tokenRequired
    rw [if_pos (by rw [hip a]; exact ht)]
  rw [h1, hmain, hip a]

/-- C6 witness: a request from `10.1.2.3` with trusted entries
`127.0.0.1` and `10.0.0.0/8` bypasses authentication with the synthetic
identity. -/
theorem trusted_bypass_synthetic_identity_witness :
    tokenRequired "" ["127.0.0.1", "10.0.0.0/8"] false
        ⟨"", "", "", "10.1.2.3:44444"⟩ sampleEnvOK [] 0 =
      ⟨.handled (trustedUserInfo "10.1.2.3"), [], 0, 0⟩ :=
  (trusted_bypass_synthetic_identity "" ["127.0.0.1", "10.0.0.0/8"] false
    ⟨"", "", "", "10.1.2.3:44444"⟩ sampleEnvOK [] 0 (by rfl)).1

/-- C7: a well-formed bearer token, a provider call that succeeds with a
non-empty subject, and a directory response with zero users, produce
the user-not-found validation failure and the 401 response, with no
identity attached (the downstream handler is not invoked) and the cache
left unchanged. -/
theorem empty_directory_users_not_found (siteDomain : String)
    (trustedIPs : List String) (tls : Bool) (r : Request) (oidc : UserInfo)
    (cache : Cache) (now : Nat)
    (hnt : isIPTrusted (getClientIP r) trustedIPs = false)
    (hlen : (goSplitChar r.authorization ' ').length = 2)
    (hscheme : goToLower ((goSplitChar r.authorization ' ').headD "") = "bearer")
    (hmiss : (cacheGet cache ((goSplitChar r.authorization ' ').getD 1 "") now).1.2 =
      false)
    (hsub : oidc.sub ≠ "") :
    tokenRequired siteDomain trustedIPs tls r
        ⟨.resp 200 (some oidc), .resp 200 (some ⟨[]⟩)⟩ cache now =
      ⟨.respond 401 "Invalid or expired token", cache, 1, 1⟩ ∧
    (validateTokenAndGetUserInfo ((goSplitChar r.authorization ' ').getD 1 "")
        siteDomain tls ⟨.resp 200 (some oidc), .resp 200 (some ⟨[]⟩)⟩
        cache now).res = .error .userNotFound := by
  have hne : r.authorization ≠ "" := by
    intro h
    rw [h] at hlen
    exact absurd hlen (by decide)
  have hval : validateTokenAndGetUserInfo
      ((goSplitChar r.authorization ' ').getD 1 "") siteDomain tls
      ⟨.resp 200 (some oidc), .resp 200 (some ⟨[]⟩)⟩ cache now =
      ⟨.error .userNotFound, cache, 1, 1⟩ := by
    unfold validateTokenAndGetUserInfo
    rcases hc : (cacheGet cache ((goSplitChar r.authorization ' ').getD 1 "") now).1
      with ⟨cu, found⟩
    rw [hc] at hmiss
    simp only at hmiss
    subst hmiss
    simp [hsub]
  constructor
  · unfold tokenRequired
    rw [if_neg (by simp [hnt]), if_neg hne,
      if_neg (by push_neg; exact ⟨hlen, hscheme⟩)]
    simp only [hval]
  · rw [hval]

/-- C7 witness: a concrete well-formed request whose provider call
succeeds but whose directory lookup returns zero users is rejected with
401 and an unchanged empty cache. -/
theorem empty_directory_users_not_found_witness :
    tokenRequired "" [] false ⟨"", "", "Bearer abc", "8.8.8.8:80"⟩
        ⟨.resp 200 (some sampleProviderInfo), .resp 200 (some ⟨[]⟩)⟩ [] 0 =
      ⟨.respond 401 "Invalid or expired token", [], 1, 1⟩ :=
  (empty_directory_users_not_found "" [] false
    ⟨"", "", "Bearer abc", "8.8.8.8:80"⟩ sampleProviderInfo [] 0
    (by rfl) (by rfl) (by rfl) (by rfl) (by decide)).1

end PreservationAuth
